import Mathlib

/-!
Verification of the archi-zoom pan/zoom controller.

Shallow embedding of the Rust sources:
  * `src/zoom/matrix.rs`   — geometry primitives (`Point2D`, `Rect`, `Matrix2D`);
  * `src/zoom/mod.rs`      — `ArchiZoom` attach and the zoom-region visibility
    evaluator `ArchiZoom::view_update`;
  * `src/zoom/svg_view_controller.rs` — the drag/zoom state machine
    `SvgViewController` and its listener registry / `dispatch_event`;
  * `src/events.rs`        — the `EventListener` shape.

The Rust code computes with `f32`; the embedding uses exact rationals `ℚ`,
so every arithmetic identity below is the exact-arithmetic content of the
corresponding floating-point code.  Host-environment values (the screen CTM,
the live `viewBox` attribute, DOM attributes) are passed as explicit state.
-/

/-- A 2-D point, from `Point2D` in `src/zoom/matrix.rs` (fields `x`, `y`). -/
structure Point2D where
  x : ℚ
  y : ℚ
deriving DecidableEq, Repr

/-- The 2×3 affine matrix `[a c e; b d f]`, from `Matrix2D` in
`src/zoom/matrix.rs`. -/
structure Matrix2D where
  a : ℚ
  b : ℚ
  c : ℚ
  d : ℚ
  e : ℚ
  f : ℚ
deriving DecidableEq, Repr

/-- `Point2D::matrix_transform` from `src/zoom/matrix.rs`:
`x' = x·a + y·c + e`, `y' = x·b + y·d + f`. -/
def Point2D.matrix_transform (p : Point2D) (matrix : Matrix2D) : Point2D :=
  { x := (p.x * matrix.a) + (p.y * matrix.c) + matrix.e
    y := (p.x * matrix.b) + (p.y * matrix.d) + matrix.f }

/-- An axis-aligned rectangle stored as two corners, from `Rect` in
`src/zoom/matrix.rs`. -/
structure Rect where
  top_left : Point2D
  bottom_right : Point2D
deriving DecidableEq, Repr

/-- `Rect::left` from `src/zoom/matrix.rs`. -/
def Rect.left (r : Rect) : ℚ := r.top_left.x

/-- `Rect::top` from `src/zoom/matrix.rs`. -/
def Rect.top (r : Rect) : ℚ := r.top_left.y

/-- `Rect::right` from `src/zoom/matrix.rs`. -/
def Rect.right (r : Rect) : ℚ := r.bottom_right.x

/-- `Rect::bottom` from `src/zoom/matrix.rs`. -/
def Rect.bottom (r : Rect) : ℚ := r.bottom_right.y

/-- `Rect::width` from `src/zoom/matrix.rs`, verbatim:
`self.top_left.x - self.bottom_right.x` (note the order: `left − right`). -/
def Rect.width (r : Rect) : ℚ := r.top_left.x - r.bottom_right.x

/-- `Rect::height` from `src/zoom/matrix.rs`, verbatim:
`self.top_left.y - self.bottom_right.y` (note the order: `top − bottom`). -/
def Rect.height (r : Rect) : ℚ := r.top_left.y - r.bottom_right.y

/-- `Rect::area` from `src/zoom/matrix.rs`: `width() * height()`. -/
def Rect.area (r : Rect) : ℚ := r.width * r.height

/-- `Rect::matrix_transform` from `src/zoom/matrix.rs`: transforms both
corners. -/
def Rect.matrix_transform (r : Rect) (matrix : Matrix2D) : Rect :=
  { top_left := r.top_left.matrix_transform matrix
    bottom_right := r.bottom_right.matrix_transform matrix }

/-- Membership of a point in the (closed) rectangle spanned by the corner
accessors; used to state what "disjoint rectangles" means semantically. -/
def Rect.mem_pt (r : Rect) (p : Point2D) : Prop :=
  r.left ≤ p.x ∧ p.x ≤ r.right ∧ r.top ≤ p.y ∧ p.y ≤ r.bottom

/-- Two rectangles are (semantically) disjoint when no point lies in both. -/
def Rect.SemDisjoint (v r : Rect) : Prop :=
  ∀ p : Point2D, ¬(v.mem_pt p ∧ r.mem_pt p)

/-- `VIEW_THRESHOLD` from `src/zoom/mod.rs`: `0.45`. -/
def VIEW_THRESHOLD : ℚ := 45 / 100

/-- The nested helper `overlap` inside `ArchiZoom::view_update`
(`src/zoom/mod.rs`): `a_right.min(b_right) - a_left.max(b_left)`. -/
def overlap (a_left a_right b_left b_right : ℚ) : ℚ :=
  min a_right b_right - max a_left b_left

/-- `horizontal_overlap` as computed in `ArchiZoom::view_update`:
`overlap(viewport.left, viewport.right, element_rect.left, element_rect.right)`. -/
def horizontal_overlap (viewport element_rect : Rect) : ℚ :=
  overlap viewport.left viewport.right element_rect.left element_rect.right

/-- `vertical_overlap` as computed in `ArchiZoom::view_update`:
`overlap(viewport.top, viewport.bottom, element_rect.top, element_rect.bottom)`. -/
def vertical_overlap (viewport element_rect : Rect) : ℚ :=
  overlap viewport.top viewport.bottom element_rect.top element_rect.bottom

/-- `area_percentage` as computed in `ArchiZoom::view_update`:
`viewable_area / total_area` where `viewable_area = horizontal_overlap *
vertical_overlap` and `total_area = viewport.area()`. -/
def area_percentage (viewport element_rect : Rect) : ℚ :=
  (horizontal_overlap viewport element_rect * vertical_overlap viewport element_rect)
    / viewport.area

/-- The per-region threshold decision of `ArchiZoom::view_update`
(`src/zoom/mod.rs`): the "in view" log fires iff
`area_percentage >= VIEW_THRESHOLD`. -/
def in_view (viewport element_rect : Rect) : Bool :=
  decide (area_percentage viewport element_rect ≥ VIEW_THRESHOLD)

/-- `ArchiZoom::view_update` over the whole region list: for each zoom
element whose screen rect is available (`element_rect()` returned `Some`),
the threshold decision; unavailable rects are skipped (no signal). -/
def view_update (viewport : Rect) (element_rects : List (Option Rect)) : List Bool :=
  element_rects.map fun er =>
    match er with
    | some element_rect => in_view viewport element_rect
    | none => false

/-- The live `viewBox` rectangle `(x, y, width, height)` of the SVG root
(`svg.view_box().base_val()` in the source). -/
structure ViewBox where
  x : ℚ
  y : ℚ
  width : ℚ
  height : ℚ
deriving DecidableEq, Repr

/-- `ZOOM_FACTOR` from `src/zoom/svg_view_controller.rs`: `0.003`. -/
def ZOOM_FACTOR : ℚ := 3 / 1000

/-- Modelled from the host API `SVGMatrix.inverse` (used by
`SvgViewController::get_point` through `svg_matrix.inverse()`): the inverse
of the affine map `[a c e; b d f; 0 0 1]`, failing (`Err` in the source,
`none` here) exactly when the determinant `a·d − b·c` is zero. -/
def Matrix2D.inverse (m : Matrix2D) : Option Matrix2D :=
  let det := m.a * m.d - m.b * m.c
  if det = 0 then none
  else
    some
      { a := m.d / det
        b := -m.b / det
        c := -m.c / det
        d := m.a / det
        e := (m.c * m.f - m.d * m.e) / det
        f := (m.b * m.e - m.a * m.f) / det }

/-- The state of `SvgViewController` (`src/zoom/svg_view_controller.rs`)
relevant to the drag/zoom state machine: `is_pointer_down`,
`pointer_origin`, and the SVG root's live `viewBox` (which the controller
reads and mutates via `self.svg.view_box().base_val()`; `none` models a
missing `baseVal`). -/
structure SvgViewController where
  is_pointer_down : Bool
  pointer_origin : Point2D
  view_box : Option ViewBox
deriving DecidableEq, Repr

/-- `SvgViewController::get_point`: transforms a screen-space position by
the inverse of the SVG's current screen CTM; `none` when the CTM is
unavailable or non-invertible (in which case the caller drops the input
event).  The current screen CTM is passed explicitly as `ctm`. -/
def get_point (ctm : Option Matrix2D) (position : Point2D) : Option Point2D :=
  match ctm with
  | some svg_matrix =>
    match svg_matrix.inverse with
    | some inverted_svg_matrix => some (position.matrix_transform inverted_svg_matrix)
    | none => none
  | none => none

/-- `SvgViewController::on_pointer_down`: on a successful `get_point`,
arm the drag and record the user-space origin; otherwise leave the state
unchanged. -/
def SvgViewController.on_pointer_down (s : SvgViewController) (ctm : Option Matrix2D)
    (position : Point2D) : SvgViewController :=
  match get_point ctm position with
  | some point => { s with is_pointer_down := true, pointer_origin := point }
  | none => s

/-- `SvgViewController::on_pointer_move`: while dragging, translate the
`viewBox` by the user-space delta from the (unchanging) `pointer_origin`
and dispatch one `ViewUpdate`; the returned number counts the
`dispatch_event` calls performed. -/
def SvgViewController.on_pointer_move (s : SvgViewController) (ctm : Option Matrix2D)
    (position : Point2D) : SvgViewController × Nat :=
  if s.is_pointer_down then
    match get_point ctm position with
    | some point =>
      match s.view_box with
      | some view_box =>
        let delta_x := point.x - s.pointer_origin.x
        let delta_y := point.y - s.pointer_origin.y
        ({ s with
            view_box := some { view_box with x := view_box.x - delta_x, y := view_box.y - delta_y } },
          1)
      | none => (s, 0)
    | none => (s, 0)
  else (s, 0)

/-- `SvgViewController::on_pointer_up` (also bound to `pointerleave`,
`mouseleave` and `touchend`): clears `is_pointer_down`. -/
def SvgViewController.on_pointer_up (s : SvgViewController) : SvgViewController :=
  { s with is_pointer_down := false }

/-- The `viewBox` mutation inside `SvgViewController::on_scroll`:
`delta_width = width·(delta_y·ZOOM_FACTOR)`, `delta_height` analogously;
then `width += delta_width`, `height += delta_height`,
`x −= delta_width/2`, `y −= delta_height/2`. -/
def scroll_view_box (delta_y : ℚ) (view_box : ViewBox) : ViewBox :=
  let delta_width := view_box.width * (delta_y * ZOOM_FACTOR)
  let delta_height := view_box.height * (delta_y * ZOOM_FACTOR)
  { x := view_box.x - delta_width / 2
    y := view_box.y - delta_height / 2
    width := view_box.width + delta_width
    height := view_box.height + delta_height }

/-- `SvgViewController::on_scroll`: mutates the `viewBox` (when present)
by `scroll_view_box` and dispatches one `ViewUpdate`; the cursor position
is received but unused, exactly as in the source. -/
def SvgViewController.on_scroll (s : SvgViewController) (delta_y : ℚ)
    (_position : Point2D) : SvgViewController × Nat :=
  match s.view_box with
  | some view_box => ({ s with view_box := some (scroll_view_box delta_y view_box) }, 1)
  | none => (s, 0)

/-- Input events delivered by the bound host handlers
(`get_drag_events` / `register_scroll_events`): `press` covers
`pointerdown`/`mousedown`/`touchstart`, `move` covers
`pointermove`/`mousemove`/`touchmove`, `release` covers
`pointerup`/`pointerleave`/`mouseup`/`mouseleave`/`touchend` (all of which
call `on_pointer_up`), and `scroll` covers `wheel`. -/
inductive InputEvent where
  | press (position : Point2D)
  | move (position : Point2D)
  | release
  | scroll (delta_y : ℚ) (position : Point2D)
deriving DecidableEq, Repr

/-- One controller step: routes an input event to the handler the source
binds for it; the `Nat` counts `ViewUpdate` dispatches. -/
def SvgViewController.step (ctm : Option Matrix2D) (s : SvgViewController) :
    InputEvent → SvgViewController × Nat
  | .press position => (s.on_pointer_down ctm position, 0)
  | .move position => s.on_pointer_move ctm position
  | .release => (s.on_pointer_up, 0)
  | .scroll delta_y position => s.on_scroll delta_y position

/-- Processing a list of input events in order (the host delivers events
sequentially and each handler runs to completion); accumulates the total
number of `ViewUpdate` dispatches. -/
def SvgViewController.run (ctm : Option Matrix2D) (s : SvgViewController) :
    List InputEvent → SvgViewController × Nat
  | [] => (s, 0)
  | ev :: evs =>
    let r := SvgViewController.step ctm s ev
    let rest := SvgViewController.run ctm r.1 evs
    (rest.1, r.2 + rest.2)

/-- The controller state built by `SvgViewController::new`: not dragging,
`pointer_origin` a fresh SVG point (which the host initializes to
`(0, 0)`), over an SVG whose `viewBox` is `view_box`. -/
def SvgViewController.initial (view_box : Option ViewBox) : SvgViewController :=
  { is_pointer_down := false, pointer_origin := { x := 0, y := 0 }, view_box := view_box }

/-- `PREFIX_ALIAS` from `src/lib.rs`: `"archizoom"`. -/
def PREFIX_ALIAS : String := "archizoom"

/-- Substring test on character lists (the semantics of the CSS attribute
selector `[*|href*="..."]` used by `ArchiZoom::new`: attribute value
contains the literal substring). -/
def has_substring (pat : List Char) : List Char → Bool
  | [] => pat.isEmpty
  | c :: rest => pat.isPrefixOf (c :: rest) || has_substring pat rest

/-- Whether an href is selected by `ArchiZoom::new`'s query
`[*|href*="#archizoom:link"]` (built from `PREFIX_ALIAS`). -/
def href_matches (href : String) : Bool :=
  has_substring ("#" ++ PREFIX_ALIAS ++ ":link").data href.data

/-- The DOM-attribute state of the SVG root that `ArchiZoom::new` can
touch: its `viewBox` attribute (a raw attribute string, `none` when the
document carries no `viewBox`), and the `xlink:href` attributes of its
link descendants. -/
structure SvgDoc where
  view_box_attr : Option String
  link_hrefs : List String
deriving DecidableEq, Repr

/-- The attribute effects of attach — `ArchiZoom::new` in
`src/zoom/mod.rs` (together with `SvgViewController::new`, which it
calls): every link whose href contains `"#archizoom:link"` has its
`xlink:href` rewritten to `"#"`; no other attribute of the SVG root is
written (in particular nothing writes `viewBox`). -/
def archi_zoom_new (doc : SvgDoc) : SvgDoc :=
  { doc with
      link_hrefs := doc.link_hrefs.map fun href =>
        if href_matches href then "#" else href }

/-- A listener from `src/events.rs` (`EventListener::receive(&self, &E)`).
The result type `Except String Unit` records whether the listener body
runs to completion (`ok`) or raises — a Rust panic / host exception
crossing the callback boundary (`error`), which the source does not
catch. -/
def Listener (E : Type) : Type := E → Except String Unit

/-- `SvgViewController::register_listener`
(`src/zoom/svg_view_controller.rs`): `self.listeners.push(...)`, i.e.
append at the end of the listener list. -/
def register_listener {E : Type} (listeners : List (Listener E)) (callback : Listener E) :
    List (Listener E) :=
  listeners ++ [callback]

/-- The fan-out loop of `SvgViewController::dispatch_event`:
`for listener in self.listeners.iter() { listener.receive(&event); }`.
Listeners run in list (= registration) order; a listener that raises
aborts the loop (there is no catch in the source), so the result is the
number of listeners that were invoked, paired with the propagated error
if one occurred. -/
def dispatch_event {E : Type} : List (Listener E) → E → Nat × Option String
  | [], _ => (0, none)
  | listener :: rest, event =>
    match listener event with
    | .ok _ =>
      let r := dispatch_event rest event
      (r.1 + 1, r.2)
    | .error msg => (1, some msg)

/-- A listener that runs to completion on every event. -/
def ok_listener {E : Type} : Listener E := fun _ => .ok ()

/-- A listener that raises on every event. -/
def failing_listener {E : Type} : Listener E := fun _ => .error "listener panicked"

/-- Claim C2 (code bug exhibited): at the concrete rectangle with
`top_left = (0,0)` and `bottom_right = (2,3)` — well-formed, since
`left ≤ right` and `top ≤ bottom` — the source's accessors return
`width = −2` and `height = −3`, the negations of `right − left = 2` and
`bottom − top = 3` that the claim states, so neither `width = right − left`
nor `width ≥ 0` holds. -/
theorem c2_width_height_sign_bug :
    Rect.width { top_left := { x := 0, y := 0 }, bottom_right := { x := 2, y := 3 } } = -2 ∧
    Rect.height { top_left := { x := 0, y := 0 }, bottom_right := { x := 2, y := 3 } } = -3 ∧
    Rect.width { top_left := { x := 0, y := 0 }, bottom_right := { x := 2, y := 3 } } ≠
      Rect.right { top_left := { x := 0, y := 0 }, bottom_right := { x := 2, y := 3 } } -
        Rect.left { top_left := { x := 0, y := 0 }, bottom_right := { x := 2, y := 3 } } ∧
    Rect.height { top_left := { x := 0, y := 0 }, bottom_right := { x := 2, y := 3 } } ≠
      Rect.bottom { top_left := { x := 0, y := 0 }, bottom_right := { x := 2, y := 3 } } -
        Rect.top { top_left := { x := 0, y := 0 }, bottom_right := { x := 2, y := 3 } } := by
  norm_num [Rect.width, Rect.height, Rect.right, Rect.left, Rect.bottom, Rect.top]

/-- Claim C10: for every `Rect`, `area()` equals the conventional
`(right − left) · (bottom − top)` — the two sign flips in `width()` and
`height()` cancel in the product — hence `area` is nonnegative for a
well-formed rectangle, and `area_percentage` (coverage) is the overlap
product divided by the conventional, sign-correct viewport area. -/
theorem c10_area_signs_cancel (r e : Rect) (h1 : r.left ≤ r.right) (h2 : r.top ≤ r.bottom) :
    r.area = (r.right - r.left) * (r.bottom - r.top) ∧
    0 ≤ r.area ∧
    area_percentage r e =
      (horizontal_overlap r e * vertical_overlap r e) /
        ((r.right - r.left) * (r.bottom - r.top)) := by
  have harea : r.area = (r.right - r.left) * (r.bottom - r.top) := by
    unfold Rect.area Rect.width Rect.height Rect.right Rect.left Rect.bottom Rect.top
    ring
  refine ⟨harea, ?_, ?_⟩
  · rw [harea]
    exact mul_nonneg (sub_nonneg.mpr h1) (sub_nonneg.mpr h2)
  · unfold area_percentage
    rw [harea]

/-- Witness for C10 at the concrete well-formed viewport `(0,0)-(4,4)`
and region `(1,1)-(3,3)`. -/
theorem c10_area_signs_cancel_witness :
    ((⟨⟨0, 0⟩, ⟨4, 4⟩⟩ : Rect).left ≤ (⟨⟨0, 0⟩, ⟨4, 4⟩⟩ : Rect).right ∧
      (⟨⟨0, 0⟩, ⟨4, 4⟩⟩ : Rect).top ≤ (⟨⟨0, 0⟩, ⟨4, 4⟩⟩ : Rect).bottom) ∧
    ((⟨⟨0, 0⟩, ⟨4, 4⟩⟩ : Rect).area =
        ((⟨⟨0, 0⟩, ⟨4, 4⟩⟩ : Rect).right - (⟨⟨0, 0⟩, ⟨4, 4⟩⟩ : Rect).left) *
          ((⟨⟨0, 0⟩, ⟨4, 4⟩⟩ : Rect).bottom - (⟨⟨0, 0⟩, ⟨4, 4⟩⟩ : Rect).top) ∧
      0 ≤ (⟨⟨0, 0⟩, ⟨4, 4⟩⟩ : Rect).area ∧
      area_percentage ⟨⟨0, 0⟩, ⟨4, 4⟩⟩ ⟨⟨1, 1⟩, ⟨3, 3⟩⟩ =
        (horizontal_overlap ⟨⟨0, 0⟩, ⟨4, 4⟩⟩ ⟨⟨1, 1⟩, ⟨3, 3⟩⟩ *
            vertical_overlap ⟨⟨0, 0⟩, ⟨4, 4⟩⟩ ⟨⟨1, 1⟩, ⟨3, 3⟩⟩) /
          (((⟨⟨0, 0⟩, ⟨4, 4⟩⟩ : Rect).right - (⟨⟨0, 0⟩, ⟨4, 4⟩⟩ : Rect).left) *
            ((⟨⟨0, 0⟩, ⟨4, 4⟩⟩ : Rect).bottom - (⟨⟨0, 0⟩, ⟨4, 4⟩⟩ : Rect).top))) :=
  ⟨⟨by decide, by decide⟩, c10_area_signs_cancel _ _ (by decide) (by decide)⟩

/-- Claim C5: a wheel event with signed delta `d` turns the viewBox
`(x, y, w, h)` into `(x − dw/2, y − dh/2, w + dw, h + dh)` where
`dw = w·(d·0.003)` and `dh = h·(d·0.003)`; in particular a scroll step
with `d = 100` on viewBox `(0, 0, 200, 200)` yields `(-30, -30, 260, 260)`
and dispatches exactly one `ViewUpdate`. -/
theorem c5_scroll_step :
    (∀ (view_box : ViewBox) (d : ℚ),
        scroll_view_box d view_box =
          { x := view_box.x - view_box.width * (d * ZOOM_FACTOR) / 2
            y := view_box.y - view_box.height * (d * ZOOM_FACTOR) / 2
            width := view_box.width + view_box.width * (d * ZOOM_FACTOR)
            height := view_box.height + view_box.height * (d * ZOOM_FACTOR) }) ∧
    SvgViewController.step none
        (SvgViewController.initial (some { x := 0, y := 0, width := 200, height := 200 }))
        (.scroll 100 { x := 0, y := 0 }) =
      ({ is_pointer_down := false, pointer_origin := { x := 0, y := 0 },
         view_box := some { x := -30, y := -30, width := 260, height := 260 } }, 1) := by
  refine ⟨fun view_box d => rfl, ?_⟩
  norm_num [SvgViewController.step, SvgViewController.initial, SvgViewController.on_scroll,
    scroll_view_box, ZOOM_FACTOR]

/-- Claim C7: a zoom step preserves the center of the viewBox exactly:
`x + w/2` and `y + h/2` are unchanged by `scroll_view_box`. -/
theorem c7_center_preserving_zoom (d : ℚ) (view_box : ViewBox) :
    (scroll_view_box d view_box).x + (scroll_view_box d view_box).width / 2 =
      view_box.x + view_box.width / 2 ∧
    (scroll_view_box d view_box).y + (scroll_view_box d view_box).height / 2 =
      view_box.y + view_box.height / 2 := by
  unfold scroll_view_box
  exact ⟨by ring, by ring⟩

/-- Claim C3 refuted at a concrete input: attaching over an SVG document
that carries no `viewBox` attribute leaves it absent — it is not set to
`"0 0 200 200"` (nothing in `ArchiZoom::new`, `SvgViewController::new` or
`new_archizoom` writes the `viewBox` attribute). -/
theorem c3_counterexample :
    (archi_zoom_new { view_box_attr := none, link_hrefs := [] }).view_box_attr ≠
      some "0 0 200 200" := by
  intro h
  simp [archi_zoom_new] at h

/-- Claim C3 amended: attach never writes the SVG root's `viewBox`
attribute — whatever `viewBox` the document had (including none) is
exactly what it has after `ArchiZoom::new`. -/
theorem c3_view_box_untouched (doc : SvgDoc) :
    (archi_zoom_new doc).view_box_attr = doc.view_box_attr := rfl

/-- A finite sequence of wheel events applied in order to a viewBox. -/
def run_scrolls (ds : List ℚ) (view_box : ViewBox) : ViewBox :=
  ds.foldl (fun vb d => scroll_view_box d vb) view_box

/-- One zoom step scales the viewBox width by `1 + d·ZOOM_FACTOR`. -/
theorem scroll_view_box_width (d : ℚ) (vb : ViewBox) :
    (scroll_view_box d vb).width = vb.width * (1 + d * ZOOM_FACTOR) := by
  unfold scroll_view_box
  ring

/-- One zoom step scales the viewBox height by `1 + d·ZOOM_FACTOR`. -/
theorem scroll_view_box_height (d : ℚ) (vb : ViewBox) :
    (scroll_view_box d vb).height = vb.height * (1 + d * ZOOM_FACTOR) := by
  unfold scroll_view_box
  ring

/-- The width after a sequence of wheel deltas is the initial width times
the product of the per-step factors. -/
theorem run_scrolls_width (ds : List ℚ) : ∀ vb : ViewBox,
    (run_scrolls ds vb).width = vb.width * (ds.map fun d => 1 + d * ZOOM_FACTOR).prod := by
  induction ds with
  | nil => intro vb; simp [run_scrolls]
  | cons d ds ih =>
    intro vb
    have h1 : run_scrolls (d :: ds) vb = run_scrolls ds (scroll_view_box d vb) := rfl
    rw [h1, ih, scroll_view_box_width, List.map_cons, List.prod_cons]
    ring

/-- The height after a sequence of wheel deltas is the initial height
times the product of the per-step factors. -/
theorem run_scrolls_height (ds : List ℚ) : ∀ vb : ViewBox,
    (run_scrolls ds vb).height = vb.height * (ds.map fun d => 1 + d * ZOOM_FACTOR).prod := by
  induction ds with
  | nil => intro vb; simp [run_scrolls]
  | cons d ds ih =>
    intro vb
    have h1 : run_scrolls (d :: ds) vb = run_scrolls ds (scroll_view_box d vb) := rfl
    rw [h1, ih, scroll_view_box_height, List.map_cons, List.prod_cons]
    ring

/-- Claim C6: after any finite sequence of wheel deltas `d₁, …, dₙ` the
viewBox width (and likewise height) equals the initial value times
`∏ᵢ (1 + 0.003·dᵢ)`, and two zoom steps commute (on the whole viewBox,
position included). -/
theorem c6_zoom_multiplicative (vb : ViewBox) (ds : List ℚ) (d1 d2 : ℚ) :
    (run_scrolls ds vb).width = vb.width * (ds.map fun d => 1 + d * ZOOM_FACTOR).prod ∧
    (run_scrolls ds vb).height = vb.height * (ds.map fun d => 1 + d * ZOOM_FACTOR).prod ∧
    scroll_view_box d1 (scroll_view_box d2 vb) = scroll_view_box d2 (scroll_view_box d1 vb) := by
  refine ⟨run_scrolls_width ds vb, run_scrolls_height ds vb, ?_⟩
  simp only [scroll_view_box, ViewBox.mk.injEq]
  refine ⟨by ring, by ring, by ring, by ring⟩

/-- Claim C1 refuted at a concrete input: the viewport `(0,0)-(400,400)`
and the region `(1000,1000)-(1100,1100)` are disjoint (no point lies in
both), yet both axis overlaps are negative (`−600` each), their product is
positive, `coverage = 360000/160000 = 9/4 ≥ 0.45`, and the evaluator
emits the "in view" signal — contradicting the claim that disjointness
makes the coverage negative and the check false. -/
theorem c1_counterexample :
    Rect.SemDisjoint ⟨⟨0, 0⟩, ⟨400, 400⟩⟩ ⟨⟨1000, 1000⟩, ⟨1100, 1100⟩⟩ ∧
    horizontal_overlap ⟨⟨0, 0⟩, ⟨400, 400⟩⟩ ⟨⟨1000, 1000⟩, ⟨1100, 1100⟩⟩ = -600 ∧
    vertical_overlap ⟨⟨0, 0⟩, ⟨400, 400⟩⟩ ⟨⟨1000, 1000⟩, ⟨1100, 1100⟩⟩ = -600 ∧
    area_percentage ⟨⟨0, 0⟩, ⟨400, 400⟩⟩ ⟨⟨1000, 1000⟩, ⟨1100, 1100⟩⟩ = 9 / 4 ∧
    in_view ⟨⟨0, 0⟩, ⟨400, 400⟩⟩ ⟨⟨1000, 1000⟩, ⟨1100, 1100⟩⟩ = true := by
  refine ⟨?_, ?_, ?_, ?_, ?_⟩
  · rintro p ⟨hv, hr⟩
    simp only [Rect.mem_pt, Rect.left, Rect.right, Rect.top, Rect.bottom] at hv hr
    linarith [hv.2.1, hr.1]
  · norm_num [horizontal_overlap, overlap, Rect.left, Rect.right]
  · norm_num [vertical_overlap, overlap, Rect.top, Rect.bottom]
  · norm_num [area_percentage, horizontal_overlap, vertical_overlap, overlap, Rect.area,
      Rect.width, Rect.height, Rect.left, Rect.right, Rect.top, Rect.bottom]
  · norm_num [in_view, area_percentage, horizontal_overlap, vertical_overlap, overlap,
      Rect.area, Rect.width, Rect.height, Rect.left, Rect.right, Rect.top, Rect.bottom,
      VIEW_THRESHOLD]

/-- Claim C1 amended: for a viewport of positive extent and a region that
is (semantically) disjoint from it, at least one axis overlap is negative;
whenever the other axis overlap is nonnegative — i.e. the rectangles are
separated on exactly one axis — the coverage is ≤ 0, the threshold check
`coverage ≥ 0.45` fails and no "in view" signal is emitted.  (When the
rectangles are separated on both axes the two negative overlaps multiply
to a positive coverage and the check can pass; see the counterexample.) -/
theorem c1_disjoint_overlap (v r : Rect) (hvx : v.left < v.right) (hvy : v.top < v.bottom)
    (hd : Rect.SemDisjoint v r) :
    (horizontal_overlap v r < 0 ∨ vertical_overlap v r < 0) ∧
    (0 ≤ vertical_overlap v r → area_percentage v r ≤ 0 ∧ in_view v r = false) ∧
    (0 ≤ horizontal_overlap v r → area_percentage v r ≤ 0 ∧ in_view v r = false) := by
  have key : horizontal_overlap v r < 0 ∨ vertical_overlap v r < 0 := by
    by_contra hcon
    push_neg at hcon
    obtain ⟨h1, h2⟩ := hcon
    simp only [horizontal_overlap, vertical_overlap, overlap] at h1 h2
    have hx : max v.left r.left ≤ min v.right r.right := by linarith
    have hy : max v.top r.top ≤ min v.bottom r.bottom := by linarith
    refine hd ⟨max v.left r.left, max v.top r.top⟩ ⟨?_, ?_⟩
    · exact ⟨le_max_left _ _, le_trans hx (min_le_left _ _),
        le_max_left _ _, le_trans hy (min_le_left _ _)⟩
    · exact ⟨le_max_right _ _, le_trans hx (min_le_right _ _),
        le_max_right _ _, le_trans hy (min_le_right _ _)⟩
  have harea : 0 < v.area := by
    have heq : v.area = (v.right - v.left) * (v.bottom - v.top) := by
      unfold Rect.area Rect.width Rect.height Rect.right Rect.left Rect.bottom Rect.top
      ring
    rw [heq]
    exact mul_pos (by linarith) (by linarith)
  have nonpos_case : ∀ hov vov : ℚ, hov * vov ≤ 0 →
      hov * vov / v.area ≤ 0 := fun hov vov hprod =>
    div_nonpos_iff.mpr (Or.inr ⟨hprod, le_of_lt harea⟩)
  have not_in_view : ∀ e1 e2 : Rect, area_percentage e1 e2 ≤ 0 → in_view e1 e2 = false := by
    intro e1 e2 hle
    apply decide_eq_false
    intro hge
    have : VIEW_THRESHOLD ≤ area_percentage e1 e2 := hge
    unfold VIEW_THRESHOLD at this
    linarith
  refine ⟨key, ?_, ?_⟩
  · intro hv2
    have hneg : horizontal_overlap v r < 0 := by
      rcases key with h | h
      · exact h
      · linarith
    have hle : area_percentage v r ≤ 0 :=
      nonpos_case _ _ (mul_nonpos_iff.mpr (Or.inr ⟨le_of_lt hneg, hv2⟩))
    exact ⟨hle, not_in_view _ _ hle⟩
  · intro hv1
    have hneg : vertical_overlap v r < 0 := by
      rcases key with h | h
      · linarith
      · exact h
    have hle : area_percentage v r ≤ 0 :=
      nonpos_case _ _ (mul_nonpos_iff.mpr (Or.inl ⟨hv1, le_of_lt hneg⟩))
    exact ⟨hle, not_in_view _ _ hle⟩

/-- Witness for the amended C1 at the viewport `(0,0)-(400,400)` and the
region `(500,0)-(600,400)`, which are disjoint on the horizontal axis
only. -/
theorem c1_disjoint_overlap_witness :
    ((⟨⟨0, 0⟩, ⟨400, 400⟩⟩ : Rect).left < (⟨⟨0, 0⟩, ⟨400, 400⟩⟩ : Rect).right ∧
      (⟨⟨0, 0⟩, ⟨400, 400⟩⟩ : Rect).top < (⟨⟨0, 0⟩, ⟨400, 400⟩⟩ : Rect).bottom ∧
      Rect.SemDisjoint ⟨⟨0, 0⟩, ⟨400, 400⟩⟩ ⟨⟨500, 0⟩, ⟨600, 400⟩⟩) ∧
    ((horizontal_overlap ⟨⟨0, 0⟩, ⟨400, 400⟩⟩ ⟨⟨500, 0⟩, ⟨600, 400⟩⟩ < 0 ∨
        vertical_overlap ⟨⟨0, 0⟩, ⟨400, 400⟩⟩ ⟨⟨500, 0⟩, ⟨600, 400⟩⟩ < 0) ∧
      (0 ≤ vertical_overlap ⟨⟨0, 0⟩, ⟨400, 400⟩⟩ ⟨⟨500, 0⟩, ⟨600, 400⟩⟩ →
        area_percentage ⟨⟨0, 0⟩, ⟨400, 400⟩⟩ ⟨⟨500, 0⟩, ⟨600, 400⟩⟩ ≤ 0 ∧
        in_view ⟨⟨0, 0⟩, ⟨400, 400⟩⟩ ⟨⟨500, 0⟩, ⟨600, 400⟩⟩ = false) ∧
      (0 ≤ horizontal_overlap ⟨⟨0, 0⟩, ⟨400, 400⟩⟩ ⟨⟨500, 0⟩, ⟨600, 400⟩⟩ →
        area_percentage ⟨⟨0, 0⟩, ⟨400, 400⟩⟩ ⟨⟨500, 0⟩, ⟨600, 400⟩⟩ ≤ 0 ∧
        in_view ⟨⟨0, 0⟩, ⟨400, 400⟩⟩ ⟨⟨500, 0⟩, ⟨600, 400⟩⟩ = false)) := by
  have hd : Rect.SemDisjoint ⟨⟨0, 0⟩, ⟨400, 400⟩⟩ ⟨⟨500, 0⟩, ⟨600, 400⟩⟩ := by
    rintro p ⟨hv, hr⟩
    simp only [Rect.mem_pt, Rect.left, Rect.right, Rect.top, Rect.bottom] at hv hr
    linarith [hv.2.1, hr.1]
  exact ⟨⟨by norm_num [Rect.left, Rect.right], by norm_num [Rect.top, Rect.bottom], hd⟩,
    c1_disjoint_overlap _ _ (by norm_num [Rect.left, Rect.right])
      (by norm_num [Rect.top, Rect.bottom]) hd⟩

/-- Claim C9 refuted at a concrete input: with two registered listeners
of which the first raises, the source's uncaught dispatch loop invokes
only the first listener — the second never receives the event, and the
error propagates. -/
theorem c9_counterexample :
    dispatch_event [failing_listener, ok_listener] () = (1, some "listener panicked") ∧
    List.length [failing_listener, (ok_listener : Listener Unit)] = 2 ∧ (1 : Nat) ≠ 2 := by
  refine ⟨rfl, rfl, by norm_num⟩

/-- Claim C9 amended: `register_listener` appends at the end of the
listener list; `dispatch_event` delivers the event to listeners in
registration order and, when every listener runs to completion, reaches
all of them; but an error raised by a listener aborts the loop — with
well-behaved listeners `ls₁` followed by a raising listener `l` and then
`ls₂`, exactly the first `|ls₁| + 1` listeners are invoked, `ls₂` never
receives the event, and the error propagates. -/
theorem c9_registry (E : Type) (ls₁ ls₂ : List (Listener E)) (l : Listener E) (ev : E)
    (msg : String) (hok : ∀ f ∈ ls₁, f ev = Except.ok ())
    (hbad : l ev = Except.error msg) :
    (∀ callback : Listener E, register_listener ls₁ callback = ls₁ ++ [callback]) ∧
    dispatch_event ls₁ ev = (ls₁.length, none) ∧
    dispatch_event (ls₁ ++ l :: ls₂) ev = (ls₁.length + 1, some msg) := by
  refine ⟨fun callback => rfl, ?_, ?_⟩
  · induction ls₁ with
    | nil => rfl
    | cons f fs ih =>
      have hf : f ev = Except.ok () := hok f (List.mem_cons_self f fs)
      have hrest := ih fun g hg => hok g (List.mem_cons_of_mem f hg)
      simp [dispatch_event, hf, hrest]
  · induction ls₁ with
    | nil =>
      simp [dispatch_event, hbad]
    | cons f fs ih =>
      have hf : f ev = Except.ok () := hok f (List.mem_cons_self f fs)
      have hrest := ih fun g hg => hok g (List.mem_cons_of_mem f hg)
      simp [dispatch_event, hf, hrest]

/-- Witness for the amended C9: one well-behaved listener, then a raising
listener, then one more listener, over the unit event. -/
theorem c9_registry_witness :
    ((∀ f ∈ [(ok_listener : Listener Unit)], f () = Except.ok ()) ∧
      (failing_listener : Listener Unit) () = Except.error "listener panicked") ∧
    ((∀ callback : Listener Unit,
        register_listener [ok_listener] callback = [ok_listener] ++ [callback]) ∧
      dispatch_event [(ok_listener : Listener Unit)] () =
        ([(ok_listener : Listener Unit)].length, none) ∧
      dispatch_event ([ok_listener] ++ failing_listener :: [ok_listener]) () =
        ([(ok_listener : Listener Unit)].length + 1, some "listener panicked")) := by
  have hok : ∀ f ∈ [(ok_listener : Listener Unit)], f () = Except.ok () := by
    intro f hf
    simp only [List.mem_singleton] at hf
    rw [hf]
    rfl
  exact ⟨⟨hok, rfl⟩, c9_registry Unit [ok_listener] [ok_listener] failing_listener () _ hok rfl⟩

/-- Unfolding the head of `SvgViewController.run` (state component). -/
theorem run_cons_fst (ctm : Option Matrix2D) (s : SvgViewController) (ev : InputEvent)
    (evs : List InputEvent) :
    (SvgViewController.run ctm s (ev :: evs)).1 =
      (SvgViewController.run ctm (SvgViewController.step ctm s ev).1 evs).1 := rfl

/-- A move while dragging, with an invertible CTM and a live viewBox,
translates the viewBox by the user-space offset from `pointer_origin`
(which is not updated) and dispatches one `ViewUpdate`. -/
theorem step_move_dragging (m mi : Matrix2D) (hinv : Matrix2D.inverse m = some mi)
    (q0 : Point2D) (vb : ViewBox) (p : Point2D) :
    SvgViewController.step (some m) ⟨true, q0, some vb⟩ (.move p) =
      (⟨true, q0,
          some { vb with
            x := vb.x - ((p.matrix_transform mi).x - q0.x)
            y := vb.y - ((p.matrix_transform mi).y - q0.y) }⟩, 1) := by
  simp [SvgViewController.step, SvgViewController.on_pointer_move, get_point, hinv]

/-- Moves while dragging accumulate: each move subtracts its full offset
from the original press origin, so after the whole list the viewBox has
moved by the *sum* of the per-move offsets. -/
theorem run_moves_dragging (m mi : Matrix2D) (hinv : Matrix2D.inverse m = some mi)
    (q0 : Point2D) (ps : List Point2D) : ∀ vb : ViewBox,
    (SvgViewController.run (some m) ⟨true, q0, some vb⟩ (ps.map InputEvent.move)).1 =
      ⟨true, q0,
        some { x := vb.x - (ps.map fun p => (p.matrix_transform mi).x - q0.x).sum
               y := vb.y - (ps.map fun p => (p.matrix_transform mi).y - q0.y).sum
               width := vb.width
               height := vb.height }⟩ := by
  induction ps with
  | nil =>
    intro vb
    simp [SvgViewController.run]
  | cons p ps ih =>
    intro vb
    rw [List.map_cons, run_cons_fst, step_move_dragging m mi hinv, ih]
    simp only [SvgViewController.mk.injEq, Option.some.injEq, ViewBox.mk.injEq,
      List.map_cons, List.sum_cons, true_and, and_true]
    exact ⟨by ring, by ring⟩

/-- Claim C4 refuted at a concrete input: with the identity CTM (fixed
throughout, and under which `screenToUser` is the identity), press at
`(0,0)` then move twice to `(1,0)`: the viewBox `(0,0,200,200)` ends at
`x = −2` — a total translation of `−2` — while
`screenToUser(p₀) − screenToUser(p₂) = 0 − 1 = −1` (and `qₙ − q₀ = 1`),
so the claimed equality fails whichever sign convention is read. -/
theorem c4_counterexample :
    (SvgViewController.run (some ⟨1, 0, 0, 1, 0, 0⟩)
        ⟨false, ⟨0, 0⟩, some ⟨0, 0, 200, 200⟩⟩
        [.press ⟨0, 0⟩, .move ⟨1, 0⟩, .move ⟨1, 0⟩]).1.view_box =
      some ⟨-2, 0, 200, 200⟩ ∧
    get_point (some ⟨1, 0, 0, 1, 0, 0⟩) ⟨0, 0⟩ = some ⟨0, 0⟩ ∧
    get_point (some ⟨1, 0, 0, 1, 0, 0⟩) ⟨1, 0⟩ = some ⟨1, 0⟩ ∧
    ((-2 : ℚ) - 0 ≠ (0 : ℚ) - 1) ∧ ((-2 : ℚ) - 0 ≠ (1 : ℚ) - 0) := by
  refine ⟨?_, ?_, ?_, by norm_num, by norm_num⟩
  · norm_num [SvgViewController.run, SvgViewController.step,
      SvgViewController.on_pointer_down, SvgViewController.on_pointer_move,
      get_point, Matrix2D.inverse, Point2D.matrix_transform]
  · norm_num [get_point, Matrix2D.inverse, Point2D.matrix_transform]
  · norm_num [get_point, Matrix2D.inverse, Point2D.matrix_transform]

/-- Claim C4 amended: for a drag sequence of a successful press at `p₀`
followed by moves at `p₁, …, pₙ` under a fixed invertible CTM, the total
translation of `viewBox.x`/`viewBox.y` is `Σᵢ (screenToUser(pᵢ) −
screenToUser(p₀))` subtracted — i.e. `Σᵢ (screenToUser(p₀) −
screenToUser(pᵢ))` — because every move re-applies its full offset from
the original, never-updated press origin.  (For a single move this is the
spec's `screenToUser(p₀) − screenToUser(p₁)`; for longer sequences it is
not `screenToUser(p₀) − screenToUser(pₙ)`.) -/
theorem c4_drag_translation (m mi : Matrix2D) (hinv : Matrix2D.inverse m = some mi)
    (vb : ViewBox) (o p0 : Point2D) (ps : List Point2D) :
    (SvgViewController.run (some m) ⟨false, o, some vb⟩
        (InputEvent.press p0 :: ps.map InputEvent.move)).1 =
      ⟨true, p0.matrix_transform mi,
        some { x := vb.x -
                 (ps.map fun p =>
                   (p.matrix_transform mi).x - (p0.matrix_transform mi).x).sum
               y := vb.y -
                 (ps.map fun p =>
                   (p.matrix_transform mi).y - (p0.matrix_transform mi).y).sum
               width := vb.width
               height := vb.height }⟩ := by
  have hpress : (SvgViewController.step (some m) ⟨false, o, some vb⟩ (.press p0)).1 =
      ⟨true, p0.matrix_transform mi, some vb⟩ := by
    simp [SvgViewController.step, SvgViewController.on_pointer_down, get_point, hinv]
  rw [run_cons_fst, hpress, run_moves_dragging m mi hinv]

/-- Witness for the amended C4: identity CTM, press at `(0,0)`, moves at
`(1,0)` and `(1,0)`; the accumulated translation is `−(1 + 1) = −2`. -/
theorem c4_drag_translation_witness :
    Matrix2D.inverse ⟨1, 0, 0, 1, 0, 0⟩ = some ⟨1, 0, 0, 1, 0, 0⟩ ∧
    (SvgViewController.run (some ⟨1, 0, 0, 1, 0, 0⟩)
        ⟨false, ⟨0, 0⟩, some ⟨0, 0, 200, 200⟩⟩
        (InputEvent.press ⟨0, 0⟩ :: [⟨1, 0⟩, (⟨1, 0⟩ : Point2D)].map InputEvent.move)).1 =
      ⟨true, Point2D.matrix_transform ⟨0, 0⟩ ⟨1, 0, 0, 1, 0, 0⟩,
        some { x := (0 : ℚ) -
                 ([⟨1, 0⟩, (⟨1, 0⟩ : Point2D)].map fun p =>
                   (p.matrix_transform ⟨1, 0, 0, 1, 0, 0⟩).x -
                     (Point2D.matrix_transform ⟨0, 0⟩ ⟨1, 0, 0, 1, 0, 0⟩).x).sum
               y := (0 : ℚ) -
                 ([⟨1, 0⟩, (⟨1, 0⟩ : Point2D)].map fun p =>
                   (p.matrix_transform ⟨1, 0, 0, 1, 0, 0⟩).y -
                     (Point2D.matrix_transform ⟨0, 0⟩ ⟨1, 0, 0, 1, 0, 0⟩).y).sum
               width := (200 : ℚ)
               height := (200 : ℚ) }⟩ :=
  ⟨by norm_num [Matrix2D.inverse],
    c4_drag_translation ⟨1, 0, 0, 1, 0, 0⟩ ⟨1, 0, 0, 1, 0, 0⟩
      (by norm_num [Matrix2D.inverse]) ⟨0, 0, 200, 200⟩ ⟨0, 0⟩ ⟨0, 0⟩
      [⟨1, 0⟩, ⟨1, 0⟩]⟩

/-- A press sets `is_pointer_down` exactly when `get_point` succeeds;
otherwise the flag keeps its previous value. -/
theorem step_press_flag (ctm : Option Matrix2D) (s : SvgViewController) (p : Point2D) :
    ((SvgViewController.step ctm s (.press p)).1).is_pointer_down =
      ((get_point ctm p).isSome || s.is_pointer_down) := by
  cases h : get_point ctm p <;>
    simp [SvgViewController.step, SvgViewController.on_pointer_down, h]

/-- A move never changes `is_pointer_down`. -/
theorem step_move_flag (ctm : Option Matrix2D) (s : SvgViewController) (p : Point2D) :
    ((SvgViewController.step ctm s (.move p)).1).is_pointer_down = s.is_pointer_down := by
  cases hgp : get_point ctm p <;> cases hvb : s.view_box <;>
      by_cases hd : s.is_pointer_down <;>
    simp [SvgViewController.step, SvgViewController.on_pointer_move, hgp, hvb, hd]

/-- A release (or leave) clears `is_pointer_down`. -/
theorem step_release_flag (ctm : Option Matrix2D) (s : SvgViewController) :
    ((SvgViewController.step ctm s .release).1).is_pointer_down = false := rfl

/-- A wheel event never changes `is_pointer_down`. -/
theorem step_scroll_flag (ctm : Option Matrix2D) (s : SvgViewController) (d : ℚ)
    (p : Point2D) :
    ((SvgViewController.step ctm s (.scroll d p)).1).is_pointer_down =
      s.is_pointer_down := by
  cases hvb : s.view_box <;> simp [SvgViewController.step, SvgViewController.on_scroll, hvb]

/-- Decomposing "the event list contains a press satisfying `A` with a
tail satisfying `B`" across a cons cell. -/
theorem press_split_cons (ev : InputEvent) (evs : List InputEvent) (A : Point2D → Prop)
    (B : List InputEvent → Prop) :
    (∃ es₁ p es₂, ev :: evs = es₁ ++ InputEvent.press p :: es₂ ∧ A p ∧ B es₂) ↔
      ((∃ p, ev = InputEvent.press p ∧ A p ∧ B evs) ∨
        (∃ es₁ p es₂, evs = es₁ ++ InputEvent.press p :: es₂ ∧ A p ∧ B es₂)) := by
  constructor
  · rintro ⟨es₁, p, es₂, heq, hA, hB⟩
    cases es₁ with
    | nil =>
      simp only [List.nil_append, List.cons.injEq] at heq
      exact Or.inl ⟨p, heq.1, hA, by rw [heq.2]; exact hB⟩
    | cons a es₁ =>
      simp only [List.cons_append, List.cons.injEq] at heq
      exact Or.inr ⟨es₁, p, es₂, heq.2, hA, hB⟩
  · rintro (⟨p, rfl, hA, hB⟩ | ⟨es₁, p, es₂, heq, hA, hB⟩)
    · exact ⟨[], p, evs, rfl, hA, hB⟩
    · exact ⟨ev :: es₁, p, es₂, by rw [heq]; rfl, hA, hB⟩

/-- Characterization of `is_pointer_down` after an arbitrary event list
from an arbitrary state: the flag is set iff the list contains a
successful press with no release after it, or the flag was already set
and no release occurs at all. -/
theorem run_flag_char (ctm : Option Matrix2D) (evs : List InputEvent) :
    ∀ s : SvgViewController,
    ((SvgViewController.run ctm s evs).1.is_pointer_down = true ↔
      ((∃ es₁ p es₂, evs = es₁ ++ InputEvent.press p :: es₂ ∧
          (get_point ctm p).isSome = true ∧ InputEvent.release ∉ es₂) ∨
        (s.is_pointer_down = true ∧ InputEvent.release ∉ evs))) := by
  induction evs with
  | nil =>
    intro s
    simp [SvgViewController.run]
  | cons ev evs ih =>
    intro s
    rw [run_cons_fst, ih, press_split_cons]
    cases ev with
    | press p =>
      rw [step_press_flag]
      simp only [Bool.or_eq_true, InputEvent.press.injEq, List.mem_cons, not_or]
      constructor
      · rintro (hsplit | ⟨hflag | hflag, hrel⟩)
        · exact Or.inl (Or.inr hsplit)
        · exact Or.inl (Or.inl ⟨p, rfl, hflag, hrel⟩)
        · exact Or.inr ⟨hflag, by simp, hrel⟩
      · rintro ((⟨p2, hp2, hsome, hrel⟩ | hsplit) | ⟨hflag, _, hrel⟩)
        · cases hp2
          exact Or.inr ⟨Or.inl hsome, hrel⟩
        · exact Or.inl hsplit
        · exact Or.inr ⟨Or.inr hflag, hrel⟩
    | move p =>
      rw [step_move_flag]
      simp only [List.mem_cons, not_or]
      constructor
      · rintro (hsplit | ⟨hflag, hrel⟩)
        · exact Or.inl (Or.inr hsplit)
        · exact Or.inr ⟨hflag, by simp, hrel⟩
      · rintro ((⟨p2, hp2, _, _⟩ | hsplit) | ⟨hflag, _, hrel⟩)
        · cases hp2
        · exact Or.inl hsplit
        · exact Or.inr ⟨hflag, hrel⟩
    | release =>
      rw [step_release_flag]
      simp only [List.mem_cons, not_or]
      constructor
      · rintro (hsplit | ⟨hflag, hrel⟩)
        · exact Or.inl (Or.inr hsplit)
        · cases hflag
      · rintro ((⟨p2, hp2, _, _⟩ | hsplit) | ⟨_, habs, _⟩)
        · cases hp2
        · exact Or.inl hsplit
        · exact absurd trivial habs
    | scroll d p =>
      rw [step_scroll_flag]
      simp only [List.mem_cons, not_or]
      constructor
      · rintro (hsplit | ⟨hflag, hrel⟩)
        · exact Or.inl (Or.inr hsplit)
        · exact Or.inr ⟨hflag, by simp, hrel⟩
      · rintro ((⟨p2, hp2, _, _⟩ | hsplit) | ⟨hflag, _, hrel⟩)
        · cases hp2
        · exact Or.inl hsplit
        · exact Or.inr ⟨hflag, hrel⟩

/-- Claim C8: starting from the freshly attached controller,
`is_pointer_down` is `true` after an input sequence exactly when the
sequence contains a press whose `screenToUser` conversion succeeded with
no release/leave event after it — in particular a press for which
`get_point` fails never enters the dragging state. -/
theorem c8_pointer_down_iff (ctm : Option Matrix2D) (vb0 : Option ViewBox)
    (evs : List InputEvent) :
    ((SvgViewController.run ctm (SvgViewController.initial vb0) evs).1.is_pointer_down = true ↔
      ∃ es₁ p es₂, evs = es₁ ++ InputEvent.press p :: es₂ ∧
        (get_point ctm p).isSome = true ∧ InputEvent.release ∉ es₂) := by
  rw [run_flag_char]
  simp [SvgViewController.initial]
